import Mathlib

/-!
Verification of the ad search/listing pipeline and the CRUD handlers of
`ads/views.py` (a classified-ads backend).  The Django ORM querysets are
embedded as Lean lists; each HTTP handler becomes a pure function from the
database state and the request data to a response (status, body) and the
new database state.

Conventions of the embedding:
* A queryset over `Ad` is a `List Ad`; `filter` calls become `List.filter`.
* `order_by("-price")` becomes `List.mergeSort` with the price-descending
  comparator.
* `django.core.paginator.Paginator` (with its default
  `allow_empty_first_page=True`, `orphans=0`) is embedded by `numPages`,
  `resolvePage` (the `get_page`/`validate_number` logic: a missing or
  non-integer page falls back to 1, an out-of-range integer page is clamped
  to the last page) and `pageSlice`.
* An attached image file is embedded as `some url` (the stored file's
  resolved access URL); `ad.image.url if ad.image else None` becomes the
  `Option String` stored in the `image` field.
* The authenticated identity of a request is `Option Nat` (the user id, or
  `none` when the request carries no authenticated identity).  The DRF
  permission `IsAuthenticated` rejects with 401 when it is `none`.
-/

namespace AdsViews

/-- `users.models.User`: the fields the ads views read (`first_name` for the
projection, the associated location names for the `location` filter). -/
structure User where
  id : Nat
  first_name : String
  locations : List String
  deriving Repr, DecidableEq

/-- `ads.models.Category`: id and name. -/
structure Category where
  id : Nat
  name : String
  deriving Repr, DecidableEq

/-- `ads.models.Ad`: the fields read by the views.  `image` is `some` of the
resolved file URL when a file is attached, `none` otherwise. -/
structure Ad where
  id : Nat
  name : String
  author_id : Nat
  price : Int
  description : String
  is_published : Bool
  category_id : Nat
  image : Option String
  deriving Repr, DecidableEq

/-- The relational store: the `User`, `Category` and `Ad` tables. -/
structure Db where
  users : List User
  categories : List Category
  ads : List Ad
  deriving Repr, DecidableEq

/-- Decides whether `needle` occurs as a contiguous run inside `hay`
(both are lists of characters). -/
def charsContain (needle : List Char) : List Char → Bool
  | [] => needle.isEmpty
  | c :: rest => needle.isPrefixOf (c :: rest) || charsContain needle rest

/-- Case-insensitive substring containment: the `__icontains` lookup. -/
def containsCI (hay sub : String) : Bool :=
  charsContain sub.toLower.toList hay.toLower.toList

/-- The query parameters of `AdView.get`.  `cat` is the (possibly empty)
list collected by `request.GET.getlist("cat", [])`; the other four are
`request.GET.get(..., None)`, where `none` stands for an absent parameter
and `some ""` for a present-but-empty one.  The numeric parameters are
already coerced (a present-but-empty numeric parameter is `none`, since an
empty string is falsy in the guard; a malformed one is a caller error). -/
structure AdQuery where
  cat : List Nat
  text : Option String
  location : Option String
  price_from : Option Int
  price_to : Option Int
  deriving Repr, DecidableEq

/-- `name__icontains=text`. -/
def textMatches (t : String) (a : Ad) : Bool :=
  containsCI a.name t

/-- `author__locations__name__icontains=location`: the ad's author has at
least one associated location whose name contains the substring,
case-insensitively.  An ad whose `author_id` matches no user row joins to
nothing and is excluded. -/
def locationMatches (db : Db) (t : String) (a : Ad) : Bool :=
  match db.users.find? (fun u => u.id == a.author_id) with
  | some u => u.locations.any (fun loc => containsCI loc t)
  | none => false

/-- The sequential filter chain of `AdView.get` (lines 148-162 of
`ads/views.py`): each filter is applied only when its parameter is present
and non-empty (Python truthiness of the raw parameter). -/
def applyFilters (db : Db) (q : AdQuery) : List Ad :=
  let l := db.ads
  let l := if q.cat.isEmpty then l else
    l.filter (fun a => q.cat.contains a.category_id)
  let l := match q.text with
    | some t => if t.isEmpty then l else l.filter (textMatches t)
    | none => l
  let l := match q.location with
    | some t => if t.isEmpty then l else l.filter (locationMatches db t)
    | none => l
  let l := match q.price_from with
    | some p => l.filter (fun a => p ≤ a.price)
    | none => l
  let l := match q.price_to with
    | some p => l.filter (fun a => a.price ≤ p)
    | none => l
  l

/-- The comparator realising `order_by("-price")`: prices descending. -/
def priceDesc (a b : Ad) : Prop :=
  b.price ≤ a.price

instance : DecidableRel priceDesc :=
  fun a b => Int.decLe b.price a.price

instance : IsTotal Ad priceDesc :=
  ⟨fun a b => Int.le_total b.price a.price⟩

instance : IsTrans Ad priceDesc :=
  ⟨fun _ _ _ hab hbc => le_trans hbc hab⟩

/-- `order_by("-price")` on a queryset: a sort by the price-descending
comparator (the database guarantees the order, not the algorithm; a
structural insertion sort keeps the embedding kernel-computable). -/
def sortAds (l : List Ad) : List Ad :=
  l.insertionSort priceDesc

/-- The `page` query parameter as `Paginator.get_page` sees it: absent,
not parseable as an integer, or an integer. -/
inductive PageParam where
  | absent
  | notAnInt
  | num (n : Int)
  deriving Repr, DecidableEq

/-- `Paginator.num_pages` with the default `allow_empty_first_page=True`
and `orphans=0`: `ceil(max(1, count) / per_page)`; an empty collection
still has one (empty) page. -/
def numPages (count ps : Nat) : Nat :=
  (max 1 count + ps - 1) / ps

/-- `Paginator.get_page`: a missing or non-integer page number falls back
to page 1 (`PageNotAnInteger`); an integer below 1 or above `num_pages`
raises `EmptyPage`, which `get_page` converts to the last page. -/
def resolvePage (p : PageParam) (np : Nat) : Nat :=
  match p with
  | .absent => 1
  | .notAnInt => 1
  | .num n => if n < 1 then np else min n.toNat np

/-- The items of 1-based page `p` with page size `ps`. -/
def pageSlice (l : List Ad) (ps p : Nat) : List Ad :=
  (l.drop ((p - 1) * ps)).take ps

/-- The wire representation of an ad, shared by the list endpoint and the
create / image-upload responses: exactly the nine keys written by
`ads/views.py`. -/
structure AdOut where
  id : Nat
  name : String
  author_id : Nat
  author : String
  price : Int
  description : String
  is_published : Bool
  category_id : Nat
  image : Option String
  deriving Repr, DecidableEq

/-- `ad.author.first_name`: the display name of the ad's author row. -/
def authorFirstName (db : Db) (a : Ad) : String :=
  match db.users.find? (fun u => u.id == a.author_id) with
  | some u => u.first_name
  | none => ""

/-- The per-ad dictionary built in the loop of `AdView.get`
(lines 171-181): `image` is the resolved URL when a file is attached,
else null. -/
def adListEntry (db : Db) (a : Ad) : AdOut :=
  { id := a.id
    name := a.name
    author_id := a.author_id
    author := authorFirstName db a
    price := a.price
    description := a.description
    is_published := a.is_published
    category_id := a.category_id
    image := a.image }

/-- The response body of the list endpoint. -/
structure AdListResponse where
  items : List AdOut
  num_pages : Nat
  total : Nat
  deriving Repr, DecidableEq

/-- `AdView.get`: filter, order by price descending, paginate with the
externally configured page size `ps` (`settings.TOTAL_ON_PAGE`), project.
`page_obj.paginator.count` is the pre-pagination item count. -/
def adListGet (db : Db) (q : AdQuery) (ps : Nat) (page : PageParam) :
    AdListResponse :=
  let sorted := sortAds (applyFilters db q)
  let total := sorted.length
  let np := numPages total ps
  let p := resolvePage page np
  { items := (pageSlice sorted ps p).map (adListEntry db)
    num_pages := np
    total := total }

/-- The full `AdView` handler.  `AdView` is a plain `ListView`: the request's
authenticated identity (`auth`) is never read. -/
def adViewHandler (auth : Option Nat) (db : Db) (q : AdQuery) (ps : Nat)
    (page : PageParam) : AdListResponse :=
  adListGet db q ps page

/-- The JSON payload of `AdCreateView.post`: the keys the handler reads. -/
structure AdPayload where
  name : String
  author_id : Nat
  price : Int
  description : String
  is_published : Bool
  category_id : Nat
  deriving Repr, DecidableEq

/-- Outcome of a handler that may create or modify data: HTTP status, the
projected body when one is returned, and the database state afterwards. -/
structure CreateResult where
  status : Nat
  body : Option AdOut
  db : Db
  deriving Repr, DecidableEq

/-- `AdCreateView.post`.  `AdCreateView` is a plain Django `CreateView`
with `csrf_exempt`: no permission class guards it, so the authenticated
identity `auth` is never consulted.  `get_object_or_404` on the referenced
`User` and `Category` turns a dangling reference into an HTTP 404 before
`Ad.objects.create` runs; on success the ad is stored (with no image) and
projected with the same nine keys as the list endpoint (`JsonResponse`
defaults to status 200).  `nextId` is the primary key the store assigns. -/
def adCreatePost (auth : Option Nat) (db : Db) (nextId : Nat)
    (p : AdPayload) : CreateResult :=
  match db.users.find? (fun u => u.id == p.author_id) with
  | none => { status := 404, body := none, db := db }
  | some author =>
    match db.categories.find? (fun c => c.id == p.category_id) with
    | none => { status := 404, body := none, db := db }
    | some category =>
      let ad : Ad :=
        { id := nextId
          name := p.name
          author_id := author.id
          price := p.price
          description := p.description
          is_published := p.is_published
          category_id := category.id
          image := none }
      { status := 200
        body := some
          { id := ad.id
            name := ad.name
            author_id := ad.author_id
            author := author.first_name
            price := ad.price
            description := ad.description
            is_published := ad.is_published
            category_id := ad.category_id
            image := ad.image }
        db := { db with ads := db.ads ++ [ad] } }

/-- `AdDetailView`: a DRF `RetrieveAPIView` with
`permission_classes = [IsAuthenticated]`.  An unauthenticated request is
rejected with 401 before any object is fetched; otherwise the ad is looked
up by primary key (404 when absent) and returned. -/
def adDetailGet (auth : Option Nat) (db : Db) (adId : Nat) :
    Nat × Option Ad :=
  match auth with
  | none => (401, none)
  | some _ =>
    match db.ads.find? (fun a => a.id == adId) with
    | none => (404, none)
    | some ad => (200, some ad)

/-- `AdUpdateView`: a DRF `UpdateAPIView` with
`permission_classes = [IsAuthenticated, AdUpdatePermission]`.
`AdUpdatePermission` is modelled from the spec: `ads/permissions.py` is not
in the sources; the spec states update requires the requester to be the
ad's author.  The serializer's field application (`AdDetailSerializer`,
also absent from the sources) is abstracted as the update function `upd`
applied to the stored ad.  DRF checks authentication (401), then fetches
the object (404), then the object permission (403). -/
def adUpdateHandler (auth : Option Nat) (db : Db) (adId : Nat)
    (upd : Ad → Ad) : Nat × Db :=
  match auth with
  | none => (401, db)
  | some uid =>
    match db.ads.find? (fun a => a.id == adId) with
    | none => (404, db)
    | some ad =>
      if ad.author_id == uid then
        (200, { db with
                 ads := db.ads.map (fun a => if a.id == adId then upd a else a) })
      else (403, db)

/-- `AdDeleteView`: a DRF `DestroyAPIView` with
`permission_classes = [IsAuthenticated, AdUpdatePermission]`
(the ownership permission modelled from the spec, as above).  An
unauthenticated request is rejected with 401 and nothing is deleted;
otherwise: 404 when the ad does not exist, 403 when the requester is not
the author, else the row is deleted (DRF returns 204). -/
def adDeleteHandler (auth : Option Nat) (db : Db) (adId : Nat) : Nat × Db :=
  match auth with
  | none => (401, db)
  | some uid =>
    match db.ads.find? (fun a => a.id == adId) with
    | none => (404, db)
    | some ad =>
      if ad.author_id == uid then
        (204, { db with ads := db.ads.filter (fun a => !(a.id == adId)) })
      else (403, db)

/-- `CategoryDeleteView.delete` (lines 132-138): `super().delete` fetches
the category by primary key and deletes it; an `Http404` is converted into
a 404 response with body `{"error": "Category not found"}`, otherwise the
response is `{"status": "ok"}` with status 200.  The body is embedded as
its single key/value pair. -/
def categoryDeleteHandler (db : Db) (cid : Nat) :
    Nat × (String × String) × Db :=
  match db.categories.find? (fun c => c.id == cid) with
  | none => (404, ("error", "Category not found"), db)
  | some _ =>
    (200, ("status", "ok"),
      { db with categories := db.categories.filter (fun c => !(c.id == cid)) })

/-- `AdUploadImageView.post` (lines 296-315): fetch the ad (404 with
`{"error": "Ads not found"}` when absent), set its `image` field to
`request.FILES.get("image", None)` — `none` when the request carries no
`image` file — save, and return the nine-key projection.  No permission
class guards this view. -/
def adUploadImage (db : Db) (adId : Nat) (file : Option String) :
    CreateResult :=
  match db.ads.find? (fun a => a.id == adId) with
  | none => { status := 404, body := none, db := db }
  | some obj0 =>
    let obj : Ad := { obj0 with image := file }
    let db1 : Db :=
      { db with
         ads := db.ads.map (fun a => if a.id == adId then { a with image := file } else a) }
    { status := 200
      body := some
        { id := obj.id
          name := obj.name
          author_id := obj.author_id
          author := authorFirstName db1 obj
          price := obj.price
          description := obj.description
          is_published := obj.is_published
          category_id := obj.category_id
          image := obj.image }
      db := db1 }

/-! ### Single-filter result sets and membership characterizations -/

/-- The result of applying only the `cat` filter of `AdView.get` to the
full `Ad` collection. -/
def catOnly (db : Db) (q : AdQuery) : List Ad :=
  if q.cat.isEmpty then db.ads
  else db.ads.filter (fun a => q.cat.contains a.category_id)

/-- The result of applying only the `text` filter to the full collection. -/
def textOnly (db : Db) (q : AdQuery) : List Ad :=
  match q.text with
  | some t => if t.isEmpty then db.ads else db.ads.filter (textMatches t)
  | none => db.ads

/-- The result of applying only the `location` filter to the full
collection. -/
def locationOnly (db : Db) (q : AdQuery) : List Ad :=
  match q.location with
  | some t => if t.isEmpty then db.ads else db.ads.filter (locationMatches db t)
  | none => db.ads

/-- The result of applying only the `price_from` filter to the full
collection. -/
def priceFromOnly (db : Db) (q : AdQuery) : List Ad :=
  match q.price_from with
  | some p => db.ads.filter (fun a => p ≤ a.price)
  | none => db.ads

/-- The result of applying only the `price_to` filter to the full
collection. -/
def priceToOnly (db : Db) (q : AdQuery) : List Ad :=
  match q.price_to with
  | some p => db.ads.filter (fun a => a.price ≤ p)
  | none => db.ads

/-- The conjunction of the five filter predicates of `AdView.get`, with an
absent or empty parameter contributing `true`. -/
def matchesQuery (db : Db) (q : AdQuery) (a : Ad) : Bool :=
  (q.cat.isEmpty || q.cat.contains a.category_id) &&
  (match q.text with
    | some t => t.isEmpty || textMatches t a
    | none => true) &&
  (match q.location with
    | some t => t.isEmpty || locationMatches db t a
    | none => true) &&
  (match q.price_from with
    | some p => decide (p ≤ a.price)
    | none => true) &&
  (match q.price_to with
    | some p => decide (a.price ≤ p)
    | none => true)

theorem mem_sortAds {a : Ad} {l : List Ad} : a ∈ sortAds l ↔ a ∈ l :=
  (List.perm_insertionSort priceDesc l).mem_iff

theorem length_sortAds (l : List Ad) : (sortAds l).length = l.length :=
  (List.perm_insertionSort priceDesc l).length_eq

theorem mem_guard_filter {a : Ad} (c : Bool) (p : Ad → Bool) (l : List Ad) :
    a ∈ (if c = true then l else l.filter p) ↔ a ∈ l ∧ (c || p a) = true := by
  cases c <;> simp [List.mem_filter]

theorem mem_applyFilters {db : Db} {q : AdQuery} {a : Ad} :
    a ∈ applyFilters db q ↔ a ∈ db.ads ∧ matchesQuery db q a = true := by
  obtain ⟨cat, text, loc, pf, pt⟩ := q
  simp only [applyFilters, matchesQuery]
  cases text <;> cases loc <;> cases pf <;> cases pt <;>
    simp only [List.mem_filter, mem_guard_filter, Bool.and_eq_true,
      Bool.or_eq_true, decide_eq_true_eq] <;>
    tauto

theorem mem_catOnly {db : Db} {q : AdQuery} {a : Ad} :
    a ∈ catOnly db q ↔
      a ∈ db.ads ∧ (q.cat.isEmpty || q.cat.contains a.category_id) = true := by
  simp only [catOnly, mem_guard_filter]

theorem mem_textOnly {db : Db} {q : AdQuery} {a : Ad} :
    a ∈ textOnly db q ↔
      a ∈ db.ads ∧
        (match q.text with
          | some t => t.isEmpty || textMatches t a
          | none => true) = true := by
  cases h : q.text with
  | none => simp [textOnly, h]
  | some t => simp only [textOnly, h, mem_guard_filter]

theorem mem_locationOnly {db : Db} {q : AdQuery} {a : Ad} :
    a ∈ locationOnly db q ↔
      a ∈ db.ads ∧
        (match q.location with
          | some t => t.isEmpty || locationMatches db t a
          | none => true) = true := by
  cases h : q.location with
  | none => simp [locationOnly, h]
  | some t => simp only [locationOnly, h, mem_guard_filter]

theorem mem_priceFromOnly {db : Db} {q : AdQuery} {a : Ad} :
    a ∈ priceFromOnly db q ↔
      a ∈ db.ads ∧
        (match q.price_from with
          | some p => decide (p ≤ a.price)
          | none => true) = true := by
  cases h : q.price_from with
  | none => simp [priceFromOnly, h]
  | some p => simp [priceFromOnly, h, List.mem_filter]

theorem mem_priceToOnly {db : Db} {q : AdQuery} {a : Ad} :
    a ∈ priceToOnly db q ↔
      a ∈ db.ads ∧
        (match q.price_to with
          | some p => decide (a.price ≤ p)
          | none => true) = true := by
  cases h : q.price_to with
  | none => simp [priceToOnly, h]
  | some p => simp [priceToOnly, h, List.mem_filter]

/-- C1: the result set of the list-ads operation equals the intersection of
the result sets obtained by applying each present filter alone to the full
`Ad` collection; a parameter that is absent or empty imposes no
restriction. -/
theorem adView_filters_conjunctive (db : Db) (q : AdQuery) :
    (∀ a : Ad, a ∈ sortAds (applyFilters db q) ↔
      a ∈ catOnly db q ∧ a ∈ textOnly db q ∧ a ∈ locationOnly db q ∧
      a ∈ priceFromOnly db q ∧ a ∈ priceToOnly db q) ∧
    catOnly db { q with cat := [] } = db.ads ∧
    textOnly db { q with text := none } = db.ads ∧
    textOnly db { q with text := some "" } = db.ads ∧
    locationOnly db { q with location := none } = db.ads ∧
    locationOnly db { q with location := some "" } = db.ads ∧
    priceFromOnly db { q with price_from := none } = db.ads ∧
    priceToOnly db { q with price_to := none } = db.ads := by
  refine ⟨fun a => ?_, rfl, rfl, rfl, rfl, rfl, rfl, rfl⟩
  rw [mem_sortAds, mem_applyFilters, mem_catOnly, mem_textOnly,
    mem_locationOnly, mem_priceFromOnly, mem_priceToOnly, matchesQuery]
  simp only [Bool.and_eq_true]
  tauto

/-- C2: for every request (any filters, any page, any page size, any
authentication state) the items returned by the list-ads operation are
ordered by price descending; no query parameter selects another order. -/
theorem adView_items_price_descending (auth : Option Nat) (db : Db)
    (q : AdQuery) (ps : Nat) (page : PageParam) :
    List.Pairwise (fun x y : AdOut => y.price ≤ x.price)
      (adViewHandler auth db q ps page).items := by
  have hs : List.Pairwise priceDesc (sortAds (applyFilters db q)) :=
    List.sorted_insertionSort priceDesc (applyFilters db q)
  have hsub : (pageSlice (sortAds (applyFilters db q)) ps
      (resolvePage page (numPages (sortAds (applyFilters db q)).length ps))).Sublist
      (sortAds (applyFilters db q)) :=
    (List.take_sublist _ _).trans (List.drop_sublist _ _)
  have hp := hs.sublist hsub
  simp only [adViewHandler, adListGet]
  refine List.Pairwise.map (adListEntry db) ?_ hp
  intro a b hab
  simpa [adListEntry, priceDesc] using hab

/-! ### Pagination lemmas -/

theorem numPages_pos {n ps : Nat} (hps : 0 < ps) : 1 ≤ numPages n ps := by
  rw [numPages, Nat.le_div_iff_mul_le hps]
  omega

theorem numPages_of_pos {n ps : Nat} (hps : 0 < ps) (hn : 0 < n) :
    numPages n ps = (n - 1) / ps + 1 := by
  rw [numPages]
  have h1 : max 1 n + ps - 1 = (n - 1) + ps := by omega
  rw [h1, Nat.add_div_right _ hps]

theorem resolvePage_clamp {n : Int} {np : Nat} (hnp : 1 ≤ np)
    (h : (np : Int) < n) : resolvePage (.num n) np = np := by
  simp only [resolvePage]
  split_ifs <;> omega

theorem resolvePage_self {np : Nat} (hnp : 1 ≤ np) :
    resolvePage (.num (np : Int)) np = np := by
  simp only [resolvePage]
  split_ifs <;> omega

theorem resolvePage_one {np : Nat} (hnp : 1 ≤ np) :
    resolvePage (.num 1) np = 1 := by
  simp only [resolvePage]
  split_ifs <;> omega

theorem resolvePage_in_range {pg np : Nat} (h1 : 1 ≤ pg) (h2 : pg ≤ np) :
    resolvePage (.num (pg : Int)) np = pg := by
  simp only [resolvePage]
  split_ifs <;> omega

theorem pageSlice_last_ne_nil {l : List Ad} {ps : Nat} (hps : 0 < ps)
    (hl : l ≠ []) : pageSlice l ps (numPages l.length ps) ≠ [] := by
  have hlen : 0 < l.length := List.length_pos.mpr hl
  have hnp : numPages l.length ps - 1 = (l.length - 1) / ps := by
    rw [numPages_of_pos hps hlen]
    exact Nat.add_sub_cancel _ _
  rw [pageSlice, hnp]
  have hmul := Nat.div_mul_le_self (l.length - 1) ps
  apply List.length_pos.mp
  rw [List.length_take, List.length_drop]
  refine lt_inf_iff.mpr ⟨hps, ?_⟩
  omega

/-- Every member of the collection occurs on some valid page. -/
theorem mem_pageSlice_exists {l : List Ad} {ps : Nat} {x : Ad}
    (hps : 0 < ps) (hx : x ∈ l) :
    ∃ p, 1 ≤ p ∧ p ≤ numPages l.length ps ∧ x ∈ pageSlice l ps p := by
  obtain ⟨i, hi, hget⟩ := List.mem_iff_getElem.mp hx
  have hdm := Nat.div_add_mod i ps
  rw [Nat.mul_comm] at hdm
  have hmod : i % ps < ps := Nat.mod_lt i hps
  refine ⟨i / ps + 1, Nat.le_add_left 1 (i / ps), ?_, ?_⟩
  · rw [numPages_of_pos hps (by omega)]
    exact Nat.add_le_add_right (Nat.div_le_div_right (by omega)) 1
  · have hlen : i % ps < ((l.drop (i / ps * ps)).take ps).length := by
      rw [List.length_take, List.length_drop]
      refine lt_inf_iff.mpr ⟨hmod, ?_⟩
      omega
    have hval : ((l.drop (i / ps * ps)).take ps)[i % ps] = x := by
      rw [List.getElem_take, List.getElem_drop]
      simp only [hdm]
      exact hget
    rw [pageSlice, Nat.add_sub_cancel]
    rw [← hval]
    exact List.getElem_mem hlen

/-! ### Concrete fixtures used by the counterexamples and witnesses -/

/-- A sample user row. -/
def exUser : User :=
  { id := 1, first_name := "Ann", locations := ["Moscow"] }

/-- A sample category row. -/
def exCat : Category :=
  { id := 2, name := "stuff" }

/-- A sample ad with the given id and price, by `exUser` in `exCat`. -/
def mkAd (i : Nat) (price : Int) : Ad :=
  { id := i, name := "bike", author_id := 1, price := price,
    description := "d", is_published := true, category_id := 2, image := none }

/-- A database with five ads (the spec's own pagination example size). -/
def dbFive : Db :=
  { users := [exUser], categories := [exCat],
    ads := [mkAd 1 10, mkAd 2 20, mkAd 3 30, mkAd 4 40, mkAd 5 50] }

/-- A database with no rows at all. -/
def dbNoAds : Db :=
  { users := [], categories := [], ads := [] }

/-- The query with every filter parameter absent. -/
def emptyQuery : AdQuery :=
  { cat := [], text := none, location := none, price_from := none,
    price_to := none }

/-- C3 counterexample: on a five-item result with page size 2 there are
3 pages, yet requesting page 100 returns 1 item (the last page), not an
empty slice. -/
theorem adView_page_beyond_last_cex :
    (adListGet dbFive emptyQuery 2 (.num 100)).num_pages = 3 ∧
    (adListGet dbFive emptyQuery 2 (.num 100)).items.length = 1 ∧
    (adListGet dbFive emptyQuery 2 (.num 100)).items ≠ [] := by
  decide

/-- C3 amended: requesting a page strictly beyond the last one does not
fail, and is clamped to the last page: it returns the last page's items,
which are empty exactly when the filtered result itself is empty. -/
theorem adView_page_beyond_last_clamps (db : Db) (q : AdQuery) (ps : Nat)
    (n : Int) (hps : 0 < ps)
    (hn : (numPages (sortAds (applyFilters db q)).length ps : Int) < n) :
    (adListGet db q ps (.num n)).items =
      (adListGet db q ps
        (.num (numPages (sortAds (applyFilters db q)).length ps))).items ∧
    ((adListGet db q ps (.num n)).items = [] ↔ applyFilters db q = []) := by
  have hnp : 1 ≤ numPages (sortAds (applyFilters db q)).length ps :=
    numPages_pos hps
  have hres : resolvePage (.num n)
      (numPages (sortAds (applyFilters db q)).length ps) =
      numPages (sortAds (applyFilters db q)).length ps :=
    resolvePage_clamp hnp hn
  have hres2 : resolvePage
      (.num ((numPages (sortAds (applyFilters db q)).length ps : Nat) : Int))
      (numPages (sortAds (applyFilters db q)).length ps) =
      numPages (sortAds (applyFilters db q)).length ps :=
    resolvePage_self hnp
  constructor
  · simp only [adListGet, hres, hres2]
  · simp only [adListGet, hres, List.map_eq_nil_iff]
    constructor
    · intro hsl
      by_contra hne
      have hsne : sortAds (applyFilters db q) ≠ [] := by
        intro h0
        have := length_sortAds (applyFilters db q)
        rw [h0] at this
        exact hne (List.length_eq_zero.mp this.symm)
      exact pageSlice_last_ne_nil hps hsne hsl
    · intro h0
      have : sortAds (applyFilters db q) = [] := by
        rw [sortAds, h0]
        rfl
      rw [this]
      simp [pageSlice]

/-- C3 amended claim witness at a concrete input. -/
theorem adView_page_beyond_last_clamps_witness :
    (0 : Nat) < 2 ∧
    ((numPages (sortAds (applyFilters dbFive emptyQuery)).length 2 : Int)
      < 100) ∧
    ((adListGet dbFive emptyQuery 2 (.num 100)).items =
      (adListGet dbFive emptyQuery 2
        (.num (numPages (sortAds (applyFilters dbFive emptyQuery)).length
          2))).items ∧
     ((adListGet dbFive emptyQuery 2 (.num 100)).items = [] ↔
       applyFilters dbFive emptyQuery = [])) :=
  ⟨by decide, by decide,
    adView_page_beyond_last_clamps dbFive emptyQuery 2 100 (by decide)
      (by decide)⟩

/-- C4 counterexample: on an empty filtered result the response has
`total = 0` but `num_pages = 1`, while `ceil(total / page_size)` is 0: the
claimed identity `num_pages = ceil(total / page_size)` fails on the empty
result. -/
theorem adView_numpages_cex :
    (adListGet dbNoAds emptyQuery 2 .absent).total = 0 ∧
    (adListGet dbNoAds emptyQuery 2 .absent).num_pages = 1 ∧
    (adListGet dbNoAds emptyQuery 2 .absent).num_pages ≠ (0 + 2 - 1) / 2 := by
  decide

/-- C4 amended: `total` equals the filtered pre-pagination count;
`num_pages = ceil(max(1, total) / page_size)` — so the claimed
`ceil(total / page_size)` does hold whenever the filtered result is
non-empty, while an empty result reports one (empty) page; a page
parameter that is absent or not an integer defaults to page 1. -/
theorem adView_pagination_metadata (db : Db) (q : AdQuery) (ps : Nat)
    (page : PageParam) (hps : 0 < ps) :
    (adListGet db q ps page).total = (applyFilters db q).length ∧
    (adListGet db q ps page).num_pages =
      (max 1 (adListGet db q ps page).total + ps - 1) / ps ∧
    (0 < (adListGet db q ps page).total →
      (adListGet db q ps page).num_pages =
        ((adListGet db q ps page).total + ps - 1) / ps) ∧
    adListGet db q ps .absent = adListGet db q ps (.num 1) ∧
    adListGet db q ps .notAnInt = adListGet db q ps (.num 1) := by
  have hlen : (sortAds (applyFilters db q)).length = (applyFilters db q).length :=
    length_sortAds (applyFilters db q)
  have hnp : 1 ≤ numPages (sortAds (applyFilters db q)).length ps :=
    numPages_pos hps
  refine ⟨?_, ?_, ?_, ?_, ?_⟩
  · simp only [adListGet, hlen]
  · simp only [adListGet, numPages, hlen]
  · intro hpos
    simp only [adListGet, hlen] at hpos ⊢
    rw [numPages]
    congr 1
    omega
  · simp only [adListGet, resolvePage_one hnp]
    rfl
  · simp only [adListGet, resolvePage_one hnp]
    rfl

/-- C4 amended claim witness at a concrete input. -/
theorem adView_pagination_metadata_witness :
    (0 : Nat) < 2 ∧
    ((adListGet dbFive emptyQuery 2 .absent).total =
      (applyFilters dbFive emptyQuery).length ∧
     (adListGet dbFive emptyQuery 2 .absent).num_pages =
      (max 1 (adListGet dbFive emptyQuery 2 .absent).total + 2 - 1) / 2 ∧
     (0 < (adListGet dbFive emptyQuery 2 .absent).total →
       (adListGet dbFive emptyQuery 2 .absent).num_pages =
        ((adListGet dbFive emptyQuery 2 .absent).total + 2 - 1) / 2) ∧
     adListGet dbFive emptyQuery 2 .absent =
       adListGet dbFive emptyQuery 2 (.num 1) ∧
     adListGet dbFive emptyQuery 2 .notAnInt =
       adListGet dbFive emptyQuery 2 (.num 1)) :=
  ⟨by decide,
    adView_pagination_metadata dbFive emptyQuery 2 .absent (by decide)⟩

/-! ### Authentication coverage of the Ad endpoints -/

/-- A database holding one user and one category and no ads. -/
def dbOneUserCat : Db :=
  { users := [exUser], categories := [exCat], ads := [] }

/-- A well-formed creation payload referencing `exUser` and `exCat`. -/
def payloadEx : AdPayload :=
  { name := "Bike", author_id := 1, price := 100, description := "d",
    is_published := true, category_id := 2 }

/-- C5 counterexample: a request with no authenticated identity reaches
`AdCreateView.post` (a plain `CreateView`, no permission class) and creates
an ad with status 200 — the create operation does not require
authentication. -/
theorem adCreate_unauthenticated_cex :
    (adCreatePost none dbOneUserCat 7 payloadEx).status = 200 ∧
    (adCreatePost none dbOneUserCat 7 payloadEx).db.ads.length =
      dbOneUserCat.ads.length + 1 := by
  decide

/-- C5 amended: retrieve, update and delete require an authenticated user —
an unauthenticated request is rejected with 401 and the store is untouched —
but create does not: `AdCreateView` never consults the requester's
identity. -/
theorem adMutation_auth_guards (db : Db) (adId : Nat) :
    adDetailGet none db adId = (401, none) ∧
    (∀ upd : Ad → Ad, adUpdateHandler none db adId upd = (401, db)) ∧
    adDeleteHandler none db adId = (401, db) ∧
    (∀ (auth : Option Nat) (nextId : Nat) (p : AdPayload),
      adCreatePost auth db nextId p = adCreatePost none db nextId p) :=
  ⟨rfl, fun _ => rfl, rfl, fun _ _ _ => rfl⟩

/-- Every stored ad appears on some page of the unfiltered list. -/
theorem exists_page_of_mem {db : Db} {a : Ad} {ps : Nat} (hps : 0 < ps)
    (ha : a ∈ db.ads) :
    ∃ pg : Nat,
      adListEntry db a ∈ (adListGet db emptyQuery ps (.num (pg : Int))).items := by
  have hmem2 : a ∈ sortAds (applyFilters db emptyQuery) := by
    rw [mem_sortAds]
    exact ha
  obtain ⟨pg, h1, h2, h3⟩ := mem_pageSlice_exists hps hmem2
  refine ⟨pg, ?_⟩
  simp only [adListGet, resolvePage_in_range h1 h2]
  exact List.mem_map_of_mem _ h3

/-- C6: the create response carries exactly the list projection of the
stored ad — the same nine fields with the same values — with `image` null
when no image was supplied (creation never attaches one), and the created
ad shows up, with that same projection, on some page of the unfiltered
list endpoint; in general the projected `image` is the attached file's
resolved URL when one is present. -/
theorem adCreate_projection_roundtrip (auth : Option Nat) (db : Db)
    (nextId : Nat) (p : AdPayload) (ps : Nat) (hps : 0 < ps)
    (hok : (adCreatePost auth db nextId p).status = 200) :
    (∀ (d : Db) (a : Ad), (adListEntry d a).image = a.image) ∧
    ∃ ad out,
      (adCreatePost auth db nextId p).db.ads = db.ads ++ [ad] ∧
      (adCreatePost auth db nextId p).body = some out ∧
      out = adListEntry (adCreatePost auth db nextId p).db ad ∧
      ad.image = none ∧ out.image = none ∧
      ∃ pg : Nat,
        out ∈ (adListGet (adCreatePost auth db nextId p).db emptyQuery ps
          (.num (pg : Int))).items := by
  refine ⟨fun d a => rfl, ?_⟩
  cases hu : db.users.find? (fun u => u.id == p.author_id) with
  | none =>
    exfalso
    simp [adCreatePost, hu] at hok
  | some author =>
    cases hc : db.categories.find? (fun c => c.id == p.category_id) with
    | none =>
      exfalso
      simp [adCreatePost, hu, hc] at hok
    | some category =>
      have hid : author.id = p.author_id := by
        have := List.find?_some hu
        simpa using this
      have hfind2 : db.users.find? (fun u => u.id == author.id) = some author := by
        rw [hid]
        exact hu
      have heq : adListEntry
          (⟨db.users, db.categories, db.ads ++ [⟨nextId, p.name, author.id,
            p.price, p.description, p.is_published, category.id, none⟩]⟩ : Db)
          (⟨nextId, p.name, author.id, p.price, p.description,
            p.is_published, category.id, none⟩ : Ad) =
          ⟨nextId, p.name, author.id, author.first_name, p.price,
            p.description, p.is_published, category.id, none⟩ := by
        simp [adListEntry, authorFirstName, hfind2]
      simp only [adCreatePost, hu, hc]
      refine ⟨_, _, rfl, rfl, heq.symm, rfl, rfl, ?_⟩
      rw [← heq]
      exact exists_page_of_mem hps (by simp)

/-- C6 witness at a concrete input. -/
theorem adCreate_projection_roundtrip_witness :
    (0 : Nat) < 2 ∧
    (adCreatePost (some 1) dbOneUserCat 7 payloadEx).status = 200 ∧
    ((∀ (d : Db) (a : Ad), (adListEntry d a).image = a.image) ∧
     ∃ ad out,
       (adCreatePost (some 1) dbOneUserCat 7 payloadEx).db.ads =
         dbOneUserCat.ads ++ [ad] ∧
       (adCreatePost (some 1) dbOneUserCat 7 payloadEx).body = some out ∧
       out = adListEntry (adCreatePost (some 1) dbOneUserCat 7 payloadEx).db ad ∧
       ad.image = none ∧ out.image = none ∧
       ∃ pg : Nat,
         out ∈ (adListGet (adCreatePost (some 1) dbOneUserCat 7 payloadEx).db
           emptyQuery 2 (.num (pg : Int))).items) :=
  ⟨by decide, by decide,
    adCreate_projection_roundtrip (some 1) dbOneUserCat 7 payloadEx 2
      (by decide) (by decide)⟩

/-! ### Category delete, dangling references, is_published, image upload -/

/-- C7: deleting a Category id that does not exist answers exactly 404 with
body `{"error": "Category not found"}` and leaves the store untouched (no
generic fault); deleting an existing id answers 200 with
`{"status": "ok"}`. -/
theorem categoryDelete_responses (db : Db) (cid : Nat) :
    ((∀ c ∈ db.categories, c.id ≠ cid) →
      categoryDeleteHandler db cid = (404, ("error", "Category not found"), db)) ∧
    ((∃ c ∈ db.categories, c.id = cid) →
      (categoryDeleteHandler db cid).1 = 200 ∧
      (categoryDeleteHandler db cid).2.1 = ("status", "ok")) := by
  cases hf : db.categories.find? (fun c => c.id == cid) with
  | none =>
    constructor
    · intro _
      simp only [categoryDeleteHandler, hf]
    · rintro ⟨c, hc, hcid⟩
      have := List.find?_eq_none.mp hf c hc
      simp [hcid] at this
  | some c =>
    constructor
    · intro hall
      have hmem := List.mem_of_find?_eq_some hf
      have hcid : c.id = cid := by simpa using List.find?_some hf
      exact absurd hcid (hall c hmem)
    · intro _
      simp [categoryDeleteHandler, hf]

/-- C7 witness: the 404 branch on an empty store and the 200 branch on a
store that holds the category. -/
theorem categoryDelete_responses_witness :
    ((∀ c ∈ dbNoAds.categories, c.id ≠ 5) ∧
     categoryDeleteHandler dbNoAds 5 = (404, ("error", "Category not found"), dbNoAds)) ∧
    ((∃ c ∈ dbOneUserCat.categories, c.id = 2) ∧
     (categoryDeleteHandler dbOneUserCat 2).1 = 200 ∧
     (categoryDeleteHandler dbOneUserCat 2).2.1 = ("status", "ok")) :=
  ⟨⟨by decide, (categoryDelete_responses dbNoAds 5).1 (by decide)⟩,
   ⟨⟨exCat, by decide, rfl⟩,
     (categoryDelete_responses dbOneUserCat 2).2 ⟨exCat, by decide, rfl⟩⟩⟩

/-- C8: an ad-creation payload whose `author_id` matches no user or whose
`category_id` matches no category fails with 404, returns no body, and
leaves the database unchanged — no ad is created. -/
theorem adCreate_dangling_refs_404 (auth : Option Nat) (db : Db)
    (nextId : Nat) (p : AdPayload)
    (h : (∀ u ∈ db.users, u.id ≠ p.author_id) ∨
         (∀ c ∈ db.categories, c.id ≠ p.category_id)) :
    (adCreatePost auth db nextId p).status = 404 ∧
    (adCreatePost auth db nextId p).body = none ∧
    (adCreatePost auth db nextId p).db = db := by
  cases h with
  | inl hu =>
    have hf : db.users.find? (fun u => u.id == p.author_id) = none :=
      List.find?_eq_none.mpr (by intro u hu2; simpa using hu u hu2)
    simp [adCreatePost, hf]
  | inr hc =>
    have hf : db.categories.find? (fun c => c.id == p.category_id) = none :=
      List.find?_eq_none.mpr (by intro c hc2; simpa using hc c hc2)
    cases hfu : db.users.find? (fun u => u.id == p.author_id) with
    | none => simp [adCreatePost, hfu]
    | some author => simp [adCreatePost, hfu, hf]

/-- A creation payload whose `author_id` references no stored user. -/
def payloadBadAuthor : AdPayload :=
  { name := "Bike", author_id := 99, price := 100, description := "d",
    is_published := true, category_id := 2 }

/-- C8 witness at a concrete dangling `author_id`. -/
theorem adCreate_dangling_refs_404_witness :
    ((∀ u ∈ dbOneUserCat.users, u.id ≠ payloadBadAuthor.author_id) ∨
     (∀ c ∈ dbOneUserCat.categories, c.id ≠ payloadBadAuthor.category_id)) ∧
    ((adCreatePost none dbOneUserCat 7 payloadBadAuthor).status = 404 ∧
     (adCreatePost none dbOneUserCat 7 payloadBadAuthor).body = none ∧
     (adCreatePost none dbOneUserCat 7 payloadBadAuthor).db = dbOneUserCat) :=
  ⟨Or.inl (by decide),
    adCreate_dangling_refs_404 none dbOneUserCat 7 payloadBadAuthor
      (Or.inl (by decide))⟩

/-- An unpublished ad and a store containing it. -/
def adUnpub : Ad :=
  ⟨6, "bike", 1, 60, "d", false, 2, none⟩

/-- A database whose only ad is unpublished. -/
def dbUnpub : Db :=
  ⟨[exUser], [exCat], [adUnpub]⟩

/-- C9: the list operation never filters on `is_published` — an unpublished
ad satisfying the requested filters is in the result set, the filter
predicate is insensitive to `is_published`, and the response does not
depend on the requester's authentication state. -/
theorem adView_ignores_is_published (db : Db) (q : AdQuery) (a : Ad) :
    (a.is_published = false → a ∈ db.ads → matchesQuery db q a = true →
      a ∈ sortAds (applyFilters db q)) ∧
    (∀ b : Bool, matchesQuery db q ⟨a.id, a.name, a.author_id, a.price,
      a.description, b, a.category_id, a.image⟩ = matchesQuery db q a) ∧
    (∀ (auth auth' : Option Nat) (ps : Nat) (page : PageParam),
      adViewHandler auth db q ps page = adViewHandler auth' db q ps page) := by
  refine ⟨?_, fun b => rfl, fun _ _ _ _ => rfl⟩
  intro _ ha hm
  exact mem_sortAds.mpr (mem_applyFilters.mpr ⟨ha, hm⟩)

/-- C9 witness: a concrete unpublished ad passes the empty filter set and
is in the result set. -/
theorem adView_ignores_is_published_witness :
    adUnpub.is_published = false ∧ adUnpub ∈ dbUnpub.ads ∧
    matchesQuery dbUnpub emptyQuery adUnpub = true ∧
    adUnpub ∈ sortAds (applyFilters dbUnpub emptyQuery) :=
  ⟨rfl, by decide, by decide,
    (adView_ignores_is_published dbUnpub emptyQuery adUnpub).1 rfl
      (by decide) (by decide)⟩

/-- C10: uploading an image to an existing ad succeeds with 200 and changes
only that ad's `image` field (set to the uploaded file, `none` when the
request carries no `image` file): users and categories are untouched, the
ad count is unchanged, every other ad row survives unmodified, and the
target row keeps every field except `image`. -/
theorem adUploadImage_frame (db : Db) (adId : Nat) (file : Option String)
    (hex : ∃ a ∈ db.ads, a.id = adId) :
    (adUploadImage db adId file).status = 200 ∧
    (adUploadImage db adId file).db.users = db.users ∧
    (adUploadImage db adId file).db.categories = db.categories ∧
    (adUploadImage db adId file).db.ads.length = db.ads.length ∧
    (∀ a ∈ db.ads, a.id ≠ adId → a ∈ (adUploadImage db adId file).db.ads) ∧
    (∀ a ∈ db.ads, a.id = adId →
      (⟨a.id, a.name, a.author_id, a.price, a.description, a.is_published,
        a.category_id, file⟩ : Ad) ∈ (adUploadImage db adId file).db.ads) ∧
    (file = none → ∀ a ∈ (adUploadImage db adId file).db.ads,
      a.id = adId → a.image = none) := by
  obtain ⟨a0, ha0, hid0⟩ := hex
  cases hf : db.ads.find? (fun a => a.id == adId) with
  | none =>
    exact absurd (by simpa using List.find?_eq_none.mp hf a0 ha0) (by simp [hid0])
  | some obj0 =>
    simp only [adUploadImage, hf]
    refine ⟨trivial, trivial, trivial, by simp, ?_, ?_, ?_⟩
    · intro a ha hne2
      refine List.mem_map.mpr ⟨a, ha, ?_⟩
      simp [hne2]
    · intro a ha heq
      refine List.mem_map.mpr ⟨a, ha, ?_⟩
      simp [heq]
    · rintro rfl a ha heq
      obtain ⟨b, hb, hfb⟩ := List.mem_map.mp ha
      by_cases hbid : b.id = adId
      · rw [← hfb]
        simp [hbid]
      · rw [← hfb] at heq
        simp [hbid] at heq

/-- C10 witness: uploading no file to ad 3 of the five-ad store. -/
theorem adUploadImage_frame_witness :
    (∃ a ∈ dbFive.ads, a.id = 3) ∧
    ((adUploadImage dbFive 3 none).status = 200 ∧
     (adUploadImage dbFive 3 none).db.users = dbFive.users ∧
     (adUploadImage dbFive 3 none).db.categories = dbFive.categories ∧
     (adUploadImage dbFive 3 none).db.ads.length = dbFive.ads.length ∧
     (∀ a ∈ dbFive.ads, a.id ≠ 3 → a ∈ (adUploadImage dbFive 3 none).db.ads) ∧
     (∀ a ∈ dbFive.ads, a.id = 3 →
       (⟨a.id, a.name, a.author_id, a.price, a.description, a.is_published,
         a.category_id, none⟩ : Ad) ∈ (adUploadImage dbFive 3 none).db.ads) ∧
     ((none : Option String) = none →
       ∀ a ∈ (adUploadImage dbFive 3 none).db.ads, a.id = 3 →
         a.image = none)) :=
  ⟨⟨mkAd 3 30, by decide, rfl⟩,
    adUploadImage_frame dbFive 3 none ⟨mkAd 3 30, by decide, rfl⟩⟩

end AdsViews
